/-
Verification of the NLU core of the chatbot-core-llm repository:
the regex NLU parser (src/llm/node/parser.py), the pyparsing NLU parser
wrapper (src/llm/node/utils.py), the simplified importance scorer
(src/models/nlu_model.py) and the context router (src/llm/routing.py).

Numeric convention: the Python code computes on floats whose inputs are
short decimal literals; we embed them as exact (unnormalised) fractions
`Q` with integer numerator and natural denominator, so that every
definition evaluates inside the kernel.  Value equality of fractions is
the cross-multiplication equivalence `Q.eqv`.

Omitted observability-only data: logging calls, timing fields
(parse_time_ms), parse_stats counters, and the opaque `metadata`
dictionaries carried by records (they are never read by any parsing,
scoring or routing decision modelled here).
-/
import Mathlib

namespace ChatbotCore

/-! ## Exact decimal fractions -/

/-- An exact fraction (numerator over positive denominator), used to embed
the Python float values flowing through the NLU core.  Fractions are kept
unnormalised so that all arithmetic reduces inside the kernel. -/
structure Q where
  num : Int
  den : Nat
  deriving Repr, DecidableEq

/-- The fraction n/d. -/
def qv (n : Int) (d : Nat) : Q := ⟨n, d⟩

/-- The integer n as a fraction. -/
def qi (n : Int) : Q := ⟨n, 1⟩

/-- Value ordering of fractions (cross multiplication; valid because all
fractions built by the model have positive denominators). -/
def Q.le (a b : Q) : Prop := a.num * (b.den : Int) ≤ b.num * (a.den : Int)

/-- Strict value ordering of fractions. -/
def Q.lt (a b : Q) : Prop := a.num * (b.den : Int) < b.num * (a.den : Int)

/-- Value equality of fractions. -/
def Q.eqv (a b : Q) : Prop := a.num * (b.den : Int) = b.num * (a.den : Int)

instance (a b : Q) : Decidable (Q.le a b) := by unfold Q.le; exact inferInstance

instance (a b : Q) : Decidable (Q.lt a b) := by unfold Q.lt; exact inferInstance

instance (a b : Q) : Decidable (Q.eqv a b) := by unfold Q.eqv; exact inferInstance

/-- Fraction addition. -/
def Q.add (a b : Q) : Q := ⟨a.num * b.den + b.num * a.den, a.den * b.den⟩

/-- Fraction multiplication. -/
def Q.mul (a b : Q) : Q := ⟨a.num * b.num, a.den * b.den⟩

/-- Python `min` on fraction values. -/
def Q.min (a b : Q) : Q := if Q.le a b then a else b

/-- Python `max` on fraction values. -/
def Q.max (a b : Q) : Q := if Q.le a b then b else a

/-! ## Character and string helpers

The Python code works on `str`; we work on `List Char` (each Lean `Char`
is one Unicode code point, as in Python 3) and convert at the edges. -/

/-- Python `c.isspace()` for the ASCII whitespace the code can meet. -/
def isWs (c : Char) : Bool := c = ' ' ∨ c = '\t' ∨ c = '\n' ∨ c = '\r'

/-- Python `str.strip()`: drop whitespace from both ends. -/
def pstrip (l : List Char) : List Char :=
  ((l.dropWhile isWs).reverse.dropWhile isWs).reverse

/-- Python `str.lower()` (ASCII case folding; the Thai range has no case). -/
def plower (l : List Char) : List Char := l.map Char.toLower

/-- Does `pat` occur at the start of `l`? -/
def headMatch : List Char → List Char → Bool
  | [], _ => true
  | _ :: _, [] => false
  | p :: ps, c :: cs => p = c && headMatch ps cs

/-- Python `pat in hay` (literal substring test; the empty pattern is a
substring of everything, as in Python). -/
def strContains (hay pat : List Char) : Bool :=
  match hay with
  | [] => pat.isEmpty
  | _ :: t => headMatch pat hay || strContains t pat

/-- Python `s.split(sep)` for a one-character separator. -/
def splitChars (sep : Char) : List Char → List (List Char)
  | [] => [[]]
  | c :: cs =>
    match splitChars sep cs with
    | [] => [[c]]
    | h :: t => if c = sep then [] :: h :: t else (c :: h) :: t

/-! ## Data model (src/models/nlu_model.py)

`metadata`, `languages` and `timestamp` never influence the importance
score and are omitted from the scorer-side record. -/

/-- An extracted intent (`NLUIntent`). -/
structure NLUIntent where
  name : String
  confidence : Q
  priority_score : Q
  deriving Repr, DecidableEq

/-- An extracted entity (`NLUEntity`). -/
structure NLUEntity where
  type : String
  value : String
  confidence : Q
  deriving Repr, DecidableEq

/-- An extracted sentiment (`NLUSentiment`). -/
structure NLUSentiment where
  label : String
  confidence : Q
  deriving Repr, DecidableEq

/-- The analysis document consumed by the scorer and the router
(`NLUResult`, scorer-relevant fields). -/
structure NLUResult where
  content : String
  intents : List NLUIntent
  entities : List NLUEntity
  sentiment : Option NLUSentiment
  deriving Repr, DecidableEq

/-! ## Context router (src/llm/routing.py) -/

/-- The five context flags returned by the router. -/
structure ContextSelection where
  core_behavior : Bool
  interaction_guidelines : Bool
  product_details : Bool
  business_policies : Bool
  user_history : Bool
  deriving Repr, DecidableEq

/-- Model of `ContextRouter._get_minimal_contexts`. -/
def get_minimal_contexts : ContextSelection :=
  { core_behavior := true, interaction_guidelines := true, user_history := true
    product_details := false, business_policies := false }

/-- Model of `ContextRouter._get_product_focused_contexts`. -/
def get_product_focused_contexts : ContextSelection :=
  { core_behavior := true, interaction_guidelines := true, product_details := true
    business_policies := true, user_history := false }

/-- Model of `ContextRouter._get_support_focused_contexts`. -/
def get_support_focused_contexts : ContextSelection :=
  { core_behavior := true, interaction_guidelines := true, business_policies := true
    user_history := true, product_details := false }

/-- Model of `ContextRouter._get_full_contexts`. -/
def get_full_contexts : ContextSelection :=
  { core_behavior := true, interaction_guidelines := true, user_history := true
    product_details := true, business_policies := true }

/-- Model of `ContextRouter._parse_default_intents`, success path: split the catalog
string on commas, and each item, after trimming, contributes the trimmed
text before its first colon. -/
def parse_default_intents_of (catalog : String) : List String :=
  (splitChars ',' catalog.data).map fun item =>
    ⟨pstrip (((splitChars ':' (pstrip item)).headD []))⟩

/-- Model of `ContextRouter._parse_default_intents` with its `except` branch: a
configuration whose catalog cannot be read or parsed (modelled as `none`)
degrades to the empty known-intent set instead of raising. -/
def parse_default_intents : Option String → List String
  | none => []
  | some catalog => parse_default_intents_of catalog

/-- Model of `ContextRouter.determine_required_contexts`: first-match routing over
the intent names, gated by membership in the configured default-intent
set; `none` or an empty intent list yields the full preset. -/
def determine_required_contexts (catalog : Option String)
    (nlu_result : Option NLUResult) : ContextSelection :=
  match nlu_result with
  | none => get_full_contexts
  | some r =>
    if r.intents = [] then get_full_contexts
    else
      let intent_names := r.intents.map NLUIntent.name
      let default_intents := parse_default_intents catalog
      if "greet" ∈ intent_names ∧ "greet" ∈ default_intents then
        get_minimal_contexts
      else if "purchase_intent" ∈ intent_names ∧ "purchase_intent" ∈ default_intents then
        get_product_focused_contexts
      else if ("support_intent" ∈ intent_names ∨ "complain_intent" ∈ intent_names) ∧
          ("support_intent" ∈ default_intents ∨ "complain_intent" ∈ default_intents) then
        get_support_focused_contexts
      else if "inquiry_intent" ∈ intent_names ∧ "inquiry_intent" ∈ default_intents then
        get_full_contexts
      else
        get_full_contexts

/-- Model of `ContextRouter.estimate_token_usage`: sum of the per-flag token
estimates over the enabled flags. -/
def estimate_token_usage (c : ContextSelection) : Nat :=
  (if c.core_behavior then 100 else 0) +
  (if c.interaction_guidelines then 150 else 0) +
  (if c.product_details then 800 else 0) +
  (if c.business_policies then 200 else 0) +
  (if c.user_history then 300 else 0)

/-! ## Importance scorer (src/models/nlu_model.py) -/

/-- Python `max(self.intents, key=lambda x: x.confidence)`: the first
intent of maximal confidence (`max` keeps the earliest maximum). -/
def top_intent : List NLUIntent → Option NLUIntent
  | [] => none
  | i :: is =>
    some (is.foldl (fun a x => if Q.lt a.confidence x.confidence then x else a) i)

/-- The fixed commercial-keyword list of `importance_score`. -/
def business_keywords : List String :=
  ["ซื้อ", "เท่าไหร่", "ราคา", "สั่ง", "จอง", "ได้ไหม", "อยาก",
   "มีไหม", "แนะนำ", "เอา", "งบ", "บาท"]

/-- Model of `NLUResult.importance_score` (the simplified scorer): baseline 0.2,
raised to at least 70% of the top intent confidence, plus a capped
business-keyword boost, a capped valid-entity boost, a flat engaged
sentiment boost, a short-message boost, clamped to [0, 1]. -/
def importance_score (r : NLUResult) : Q :=
  let base : Q := qv 2 10
  let score1 :=
    match top_intent r.intents with
    | none => base
    | some i => Q.max base (Q.mul i.confidence (qv 7 10))
  let lowered := plower r.content.data
  let keyword_matches := (business_keywords.filter fun w => strContains lowered w.data).length
  let score2 :=
    if 0 < keyword_matches then
      Q.add score1 (Q.min (Q.mul (qi keyword_matches) (qv 15 100)) (qv 3 10))
    else score1
  let valid_entities := r.entities.filter fun e => strContains lowered (plower e.value.data)
  let score3 :=
    if r.entities ≠ [] ∧ valid_entities ≠ [] then
      Q.add score2 (Q.min (Q.mul (qi valid_entities.length) (qv 1 10)) (qv 2 10))
    else score2
  let score4 :=
    match r.sentiment with
    | some s =>
      if s.label = "positive" ∨ s.label = "negative" then Q.add score3 (qv 1 10) else score3
    | none => score3
  let message_length := (pstrip r.content.data).length
  let score5 :=
    if message_length ≤ 10 ∧ Q.le (qv 6 10) score4 then Q.add score4 (qv 1 10) else score4
  Q.max (qi 0) (Q.min (qi 1) score5)

/-- A document as Python can see it when validation was bypassed: each
field may be missing or of an unusable shape (modelled as `none`), and
touching such a field inside the scorer body raises. -/
structure RawNLUResult where
  content : Option String
  intents : Option (List NLUIntent)
  entities : Option (List NLUEntity)
  sentiment : Option (Option NLUSentiment)
  deriving Repr

/-- Reading a field of a possibly malformed document: raises (as
`Except.error`) when the field is unusable. -/
def getAttr {α : Type} (v : Option α) (name : String) : Except String α :=
  match v with
  | some a => Except.ok a
  | none => Except.error name

/-- The body of `importance_score` as run inside its `try`: every field
access can raise. -/
def importance_score_body (r : RawNLUResult) : Except String Q := do
  let content ← getAttr r.content "content"
  let intents ← getAttr r.intents "intents"
  let entities ← getAttr r.entities "entities"
  let sentiment ← getAttr r.sentiment "sentiment"
  pure (importance_score ⟨content, intents, entities, sentiment⟩)

/-- Model of `importance_score` with its `except` handler: any internal error is
mapped to the fixed fallback score 0.4. -/
def importance_score_guarded (r : RawNLUResult) : Q :=
  match importance_score_body r with
  | Except.ok q => q
  | Except.error _ => qv 4 10

/-- The scenario document of the spec: message `"สวัสดีครับ"`, exactly one
intent `greet@0.9`, no entities, no sentiment. -/
def greeting_doc : NLUResult :=
  { content := "สวัสดีครับ", intents := [⟨"greet", qv 9 10, qi 0⟩],
    entities := [], sentiment := none }
/-! ## Regex NLU parser (src/llm/node/parser.py)

The fixed regular expressions of `parse_nlu_output` are embedded as
direct scanners over `List Char`.  Greedy character-class repetition is
maximal munch (faithful because in every pattern the token following a
greedy class cannot begin with a character of that class for the default
delimiters); the single lazy repetition (the entity value) tries its
continuation before consuming each further character, exactly as the
regex engine does.  Python `\w` is modelled over the ASCII and Thai
ranges the system targets. -/

/-- The class `[a-zA-Z_]`. -/
def isNameChar (c : Char) : Bool := (('a' ≤ c ∧ c ≤ 'z') ∨ ('A' ≤ c ∧ c ≤ 'Z') ∨ c = '_')

/-- The class `[0-9.]`. -/
def isConfChar (c : Char) : Bool := c.isDigit ∨ c = '.'

/-- The Thai block `[฀-๿]`. -/
def isThaiChar (c : Char) : Bool := 0xE00 ≤ c.toNat ∧ c.toNat ≤ 0xE7F

/-- The entity-value class `[\w฀-๿\s]`. -/
def isEntityValChar (c : Char) : Bool :=
  c.isAlphanum ∨ c = '_' ∨ isThaiChar c ∨ isWs c

/-- Case-insensitive literal match at the head, returning the remainder
(`re.IGNORECASE` applies to every pattern of the parser). -/
def matchLit : List Char → List Char → Option (List Char)
  | [], l => some l
  | _ :: _, [] => none
  | p :: ps, c :: cs => if p.toLower = c.toLower then matchLit ps cs else none

/-- Greedy repetition of a character class: the maximal matched run and
the remainder. -/
def takeClass (p : Char → Bool) : List Char → List Char × List Char
  | [] => ([], [])
  | c :: cs =>
    if p c then
      let r := takeClass p cs
      (c :: r.1, r.2)
    else ([], c :: cs)

/-- Numeric value of a digit run. -/
def digitsVal (l : List Char) : Nat := l.foldl (fun a c => a * 10 + (c.toNat - 48)) 0

/-- Python `float(s)` on text drawn from `[0-9.]+`: at most one dot and
at least one digit, else `ValueError` (modelled as `none`). -/
def parsePyFloat (l : List Char) : Option Q :=
  match splitChars '.' l with
  | [ip] => if ip ≠ [] ∧ ip.all Char.isDigit then some (qi (digitsVal ip)) else none
  | [ip, fp] =>
    if (ip ≠ [] ∨ fp ≠ []) ∧ ip.all Char.isDigit ∧ fp.all Char.isDigit then
      some (qv (digitsVal ip * 10 ^ fp.length + digitsVal fp) (10 ^ fp.length))
    else none
  | _ => none

/-- An intent dict of the regex parser: `{name, confidence}`. -/
structure SIntent where
  name : String
  confidence : Q
  deriving Repr, DecidableEq

/-- A language dict: `{code, confidence, is_primary}`. -/
structure NLULanguage where
  code : String
  confidence : Q
  is_primary : Bool
  deriving Repr, DecidableEq

/-- One attempt of `\(intent<D>([a-zA-Z_]+)<D>([0-9.]+)\)` at the current
position: `none` if the pattern does not match here; `some (r, rest)`
when it matches and consumes up to `rest`, where `r` is the stored intent
(confidence upper-clamped through `min(1.0, ...)`) or `none` when
`float()` raised and the record was skipped. -/
def matchIntentAt (d l : List Char) : Option (Option SIntent × List Char) := do
  let r1 ← matchLit "(intent".data l
  let r2 ← matchLit d r1
  let (name, r3) := takeClass isNameChar r2
  if name.isEmpty then none else do
  let r4 ← matchLit d r3
  let (conf, r5) := takeClass isConfChar r4
  if conf.isEmpty then none else do
  let r6 ← matchLit ")".data r5
  match parsePyFloat conf with
  | some q => some (some ⟨⟨name⟩, Q.min (qi 1) q⟩, r6)
  | none => some (none, r6)

/-- The continuation after the lazy entity value: delimiter, confidence
run, closing parenthesis. -/
def entityValCont (d l : List Char) : Option (List Char × List Char) := do
  let r1 ← matchLit d l
  let (conf, r2) := takeClass isConfChar r1
  if conf.isEmpty then none else do
  let r3 ← matchLit ")".data r2
  some (conf, r3)

/-- The lazy repetition `([\w฀-๿\s]+?)` of the entity pattern:
after each consumed character, first try the continuation. -/
def lazyEntityVal (d : List Char) : List Char → List Char → Option (List Char × List Char × List Char)
  | acc, [] =>
    match entityValCont d [] with
    | some (conf, rest) => some (acc.reverse, conf, rest)
    | none => none
  | acc, c :: cs =>
    match entityValCont d (c :: cs) with
    | some (conf, rest) => some (acc.reverse, conf, rest)
    | none => if isEntityValChar c then lazyEntityVal d (c :: acc) cs else none

/-- One attempt of
`\(entity<D>([a-zA-Z_]+)<D>([\w฀-๿\s]+?)<D>([0-9.]+)\)` at the
current position (the stored value is stripped, the confidence
upper-clamped). -/
def matchEntityAt (d l : List Char) : Option (Option NLUEntity × List Char) := do
  let r1 ← matchLit "(entity".data l
  let r2 ← matchLit d r1
  let (ty, r3) := takeClass isNameChar r2
  if ty.isEmpty then none else do
  let r4 ← matchLit d r3
  match r4 with
  | [] => none
  | c :: cs =>
    if isEntityValChar c then
      match lazyEntityVal d [c] cs with
      | some (value, conf, rest) =>
        match parsePyFloat conf with
        | some q => some (some ⟨⟨ty⟩, ⟨pstrip value⟩, Q.min (qi 1) q⟩, rest)
        | none => some (none, rest)
      | none => none
    else none

/-- The optional flag `([01]?)` followed by the closing parenthesis:
returns the captured text. -/
def matchPrimaryFlag : List Char → Option (List Char × List Char)
  | c :: rest =>
    if c = '0' ∨ c = '1' then
      match rest with
      | ')' :: rest2 => some ([c], rest2)
      | _ => none
    else if c = ')' then some ([], rest)
    else none
  | [] => none

/-- One attempt of `\(language<D>([A-Z]{3})<D>([0-9.]+)<D>([01]?)\)` at
the current position (the stored code is upper-cased). -/
def matchLanguageAt (d l : List Char) : Option (Option NLULanguage × List Char) := do
  let r1 ← matchLit "(language".data l
  let r2 ← matchLit d r1
  match r2 with
  | c1 :: c2 :: c3 :: r3 =>
    if c1.isAlpha ∧ c2.isAlpha ∧ c3.isAlpha then do
      let r4 ← matchLit d r3
      let (conf, r5) := takeClass isConfChar r4
      if conf.isEmpty then none else do
      let r6 ← matchLit d r5
      let (flag, r7) ← matchPrimaryFlag r6
      match parsePyFloat conf with
      | some q =>
        some (some ⟨⟨[c1.toUpper, c2.toUpper, c3.toUpper]⟩, Q.min (qi 1) q, flag = ['1']⟩, r7)
      | none => some (none, r7)
    else none
  | _ => none

/-- The alternation `(positive|negative|neutral)` (captured text is later
lower-cased, so the canonical lowercase label is stored). -/
def matchLabel (l : List Char) : Option (List Char × List Char) :=
  match matchLit "positive".data l with
  | some r => some ("positive".data, r)
  | none =>
    match matchLit "negative".data l with
    | some r => some ("negative".data, r)
    | none =>
      match matchLit "neutral".data l with
      | some r => some ("neutral".data, r)
      | none => none

/-- One attempt of `\(sentiment<D>(positive|negative|neutral)<D>([0-9.]+)\)`
at the current position. -/
def matchSentimentAt (d l : List Char) : Option (Option NLUSentiment × List Char) := do
  let r1 ← matchLit "(sentiment".data l
  let r2 ← matchLit d r1
  let (label, r3) ← matchLabel r2
  let r4 ← matchLit d r3
  let (conf, r5) := takeClass isConfChar r4
  if conf.isEmpty then none else do
  let r6 ← matchLit ")".data r5
  match parsePyFloat conf with
  | some q => some (some ⟨⟨label⟩, Q.min (qi 1) q⟩, r6)
  | none => some (none, r6)

/-- Model of `re.finditer` for the intent pattern: scan left to right, restart
after each match (fuelled by the input length, which the remainder never
exceeds). -/
def scanIntentsAux (d : List Char) : Nat → List Char → List SIntent
  | 0, _ => []
  | _ + 1, [] => []
  | fuel + 1, c :: cs =>
    match matchIntentAt d (c :: cs) with
    | some (some i, rest) => i :: scanIntentsAux d fuel rest
    | some (none, rest) => scanIntentsAux d fuel rest
    | none => scanIntentsAux d fuel cs

/-- All intents extracted by the intent regex. -/
def scanIntents (d l : List Char) : List SIntent := scanIntentsAux d l.length l

/-- Model of `re.finditer` for the entity pattern. -/
def scanEntitiesAux (d : List Char) : Nat → List Char → List NLUEntity
  | 0, _ => []
  | _ + 1, [] => []
  | fuel + 1, c :: cs =>
    match matchEntityAt d (c :: cs) with
    | some (some e, rest) => e :: scanEntitiesAux d fuel rest
    | some (none, rest) => scanEntitiesAux d fuel rest
    | none => scanEntitiesAux d fuel cs

/-- All entities extracted by the entity regex. -/
def scanEntities (d l : List Char) : List NLUEntity := scanEntitiesAux d l.length l

/-- Model of `re.finditer` for the language pattern. -/
def scanLanguagesAux (d : List Char) : Nat → List Char → List NLULanguage
  | 0, _ => []
  | _ + 1, [] => []
  | fuel + 1, c :: cs =>
    match matchLanguageAt d (c :: cs) with
    | some (some g, rest) => g :: scanLanguagesAux d fuel rest
    | some (none, rest) => scanLanguagesAux d fuel rest
    | none => scanLanguagesAux d fuel cs

/-- All languages extracted by the language regex. -/
def scanLanguages (d l : List Char) : List NLULanguage := scanLanguagesAux d l.length l

/-- Model of `re.search` for the sentiment pattern: the first match decides (a
`float` failure there leaves the sentiment unset). -/
def scanSentimentAux (d : List Char) : Nat → List Char → Option NLUSentiment
  | 0, _ => none
  | _ + 1, [] => none
  | fuel + 1, c :: cs =>
    match matchSentimentAt d (c :: cs) with
    | some (res, _) => res
    | none => scanSentimentAux d fuel cs

/-- The sentiment extracted by the sentiment regex, if any. -/
def scanSentiment (d l : List Char) : Option NLUSentiment := scanSentimentAux d l.length l

/-- Python `s.replace(pat, "")` for a fixed non-empty pattern. -/
def removeSubAux (pat : List Char) : Nat → List Char → List Char
  | 0, l => l
  | _ + 1, [] => []
  | fuel + 1, c :: cs =>
    if headMatch pat (c :: cs) ∧ pat ≠ [] then removeSubAux pat fuel ((c :: cs).drop pat.length)
    else c :: removeSubAux pat fuel cs

/-- Python `s.replace(pat, "")`. -/
def removeAllSub (pat l : List Char) : List Char := removeSubAux pat l.length l

/-- The cleaning step of `parse_nlu_output`:
`raw_output.replace("<|COMPLETE|>", "").strip()`. -/
def clean_raw (l : List Char) : List Char := pstrip (removeAllSub "<|COMPLETE|>".data l)

/-- The keyword families of `_extract_fallback_patterns`. -/
def intent_keywords : List (String × List String) :=
  [("greet", ["สวัสดี", "ครับ", "คะ", "hello", "hi"]),
   ("purchase_intent", ["ซื้อ", "ขาย", "ราคา", "buy", "price"]),
   ("inquiry_intent", ["อยาก", "สอบถาม", "ถาม", "want", "ask"]),
   ("support_intent", ["ช่วย", "แก้", "ปัญหา", "help", "problem"]),
   ("complain_intent", ["แย่", "ไม่ดี", "บ่น", "bad", "complain"])]

/-- Model of `_extract_fallback_patterns` (called with empty intent/entity lists):
one intent at 0.7 per keyword family present in the lower-cased text, and
`general_intent@0.5` when no family matched. -/
def extract_fallback_intents (text : List Char) : List SIntent :=
  let text_lower := plower text
  let hits := intent_keywords.filterMap fun p =>
    if p.2.any (fun k => strContains text_lower (plower k.data)) then
      some (⟨p.1, qv 7 10⟩ : SIntent)
    else none
  if hits = [] then [⟨"general_intent", qv 5 10⟩] else hits

/-- Stable insertion of `x` before the first element `y` with `le x y`
(`le` is the should-come-no-later relation). -/
def stableInsert {α : Type} (le : α → α → Bool) (x : α) : List α → List α
  | [] => [x]
  | y :: ys => if le x y then x :: y :: ys else y :: stableInsert le x ys

/-- A stable sort (as Python `list.sort`): elements comparing equal keep
their original order. -/
def stableSort {α : Type} (le : α → α → Bool) : List α → List α
  | [] => []
  | x :: xs => stableInsert le x (stableSort le xs)

/-- Model of `sort(key=lambda x: x["confidence"], reverse=True)` for intents. -/
def sortIntentsByConf (l : List SIntent) : List SIntent :=
  stableSort (fun a b => decide (Q.le b.confidence a.confidence)) l

/-- Model of `sort(key=lambda x: x["confidence"], reverse=True)` for entities. -/
def sortEntitiesByConf (l : List NLUEntity) : List NLUEntity :=
  stableSort (fun a b => decide (Q.le b.confidence a.confidence)) l

/-- The dict returned by `parse_nlu_output`. -/
structure SimpleParseResult where
  intents : List SIntent
  entities : List NLUEntity
  languages : List NLULanguage
  sentiment : Option NLUSentiment
  success : Bool
  deriving Repr, DecidableEq

/-- Model of `parse_nlu_output` (src/llm/node/parser.py): clean, run the four
record regexes, fall back to keyword intents when no intent and no entity
was extracted, sort intents and entities by descending confidence. -/
def parse_nlu_output (raw_output delimiter : String) : SimpleParseResult :=
  let cleaned := clean_raw raw_output.data
  let d := delimiter.data
  let intents0 := scanIntents d cleaned
  let entities0 := scanEntities d cleaned
  let languages := scanLanguages d cleaned
  let sentiment := scanSentiment d cleaned
  let intents1 :=
    if intents0 = [] ∧ entities0 = [] then extract_fallback_intents cleaned else intents0
  let intents2 := sortIntentsByConf intents1
  let entities2 := sortEntitiesByConf entities0
  { intents := intents2, entities := entities2, languages := languages,
    sentiment := sentiment, success := !(intents2.isEmpty && entities2.isEmpty) }

/-- The dict built by the `except` handler of `parse_nlu_output`. -/
def nlu_error_result : SimpleParseResult :=
  { intents := [⟨"general_intent", qv 5 10⟩], entities := [], languages := [],
    sentiment := none, success := false }

/-- Model of `parse_nlu_output` with its top-level handler: a raised body is
converted to the one-intent error dict. -/
def parse_nlu_output_handler (body : Except String SimpleParseResult) : SimpleParseResult :=
  match body with
  | Except.ok r => r
  | Except.error _ => nlu_error_result

/-! ## PyParsing NLU parser wrapper (src/llm/node/utils.py)

`PyParsingNLUParser` drives the external `pyparsing` library.  The two
library calls (`self.grammar.parseString` and the flexible grammar of
`_parse_with_partial_grammar`) are external collaborators: their possible
behaviours — a record list, a `ParseException`, or another exception,
each raised fast or after the 500 ms budget — are supplied as an oracle
that theorems quantify over.  Everything around them (cleaning,
validation, statuses, fallbacks, truncation) is repository code and is
embedded concretely.  The parser is modelled at its default delimiter
configuration.  The two last-resort regex fallbacks are embedded as
maximal-munch scanners (faithful for field-separated text, which is the
only shape those regexes are given). -/

/-- A record as delivered by the pyparsing grammar (`confidence` and
`priority` may be absent, as `data.get` allows). -/
inductive PRecord where
  | intent (name : String) (confidence : Option Q) (priority : Option Q)
  | entity (type : String) (value : String) (confidence : Option Q)
  | language (code : String) (confidence : Option Q) (is_primary : Int)
  | sentiment (label : String) (confidence : Option Q)
  deriving Repr, DecidableEq

/-- A record of the flexible partial grammar: a type word, captured value
words, and an optional trailing number. -/
structure FlexRecord where
  type : String
  values : List String
  confidence : Option Q
  deriving Repr, DecidableEq

/-- The outcome of `self.grammar.parseString(cleaned_output)`: a parse,
or an exception (`ParseException` or any other), with `slow` telling
whether more than 500 ms had elapsed when it was caught. -/
inductive GrammarOutcome where
  | ok (records : List PRecord)
  | parseExc (slow : Bool)
  | otherExc (slow : Bool)
  deriving Repr, DecidableEq

/-- The behaviour of the two pyparsing library calls for one input:
`flexible = none` models the flexible grammar raising. -/
structure PyParsingOracle where
  grammar : GrammarOutcome
  flexible : Option (List FlexRecord)
  deriving Repr, DecidableEq

/-- The result dict built by `PyParsingNLUParser` (aggregate diagnostic
counts and averages omitted; `status`/`strategy_used` hold the literal
strings the code stores). -/
structure UtilsResult where
  intents : List NLUIntent
  entities : List NLUEntity
  languages : List NLULanguage
  sentiment : Option NLUSentiment
  primary_language : Option String
  has_sentiment : Bool
  status : String
  strategy_used : String
  raw_output : Option (List Char)
  deriving Repr, DecidableEq

/-- Model of `_init_result_structure`. -/
def init_result : UtilsResult :=
  { intents := [], entities := [], languages := [], sentiment := none,
    primary_language := none, has_sentiment := false,
    status := "success", strategy_used := "pyparsing_grammar", raw_output := none }

/-- Model of `_safe_float_extract`. -/
def safe_float_extract (v : Option Q) (default : Q) : Q := v.getD default

/-- Model of `_add_intent_from_parsed`: validation — an empty name or a confidence
outside [0, 1] rejects the record (returns `false`); nothing is
clamped. -/
def add_intent_from_parsed (name : String) (confidence priority : Option Q)
    (result : UtilsResult) : UtilsResult × Bool :=
  let c := safe_float_extract confidence (qi 0)
  let p := safe_float_extract priority (qi 0)
  if name = "" ∨ ¬(Q.le (qi 0) c ∧ Q.le c (qi 1)) then (result, false)
  else ({ result with intents := result.intents ++ [⟨name, c, p⟩] }, true)

/-- Model of `_add_entity_from_parsed`: an empty type or value rejects the record;
the confidence is not validated. -/
def add_entity_from_parsed (ty value : String) (confidence : Option Q)
    (result : UtilsResult) : UtilsResult × Bool :=
  let c := safe_float_extract confidence (qi 0)
  if ty = "" ∨ value = "" then (result, false)
  else ({ result with entities := result.entities ++ [⟨ty, value, c⟩] }, true)

/-- Model of `_add_language_from_parsed`: the upper-cased code must have length 3;
a primary language is recorded in the metadata. -/
def add_language_from_parsed (code : String) (confidence : Option Q) (is_primary : Int)
    (result : UtilsResult) : UtilsResult × Bool :=
  let codeU : String := ⟨code.data.map Char.toUpper⟩
  let c := safe_float_extract confidence (qi 0)
  let isPrim : Bool := decide (is_primary ≠ 0)
  if codeU.data.length ≠ 3 then (result, false)
  else
    let r1 := { result with languages := result.languages ++ [⟨codeU, c, isPrim⟩] }
    ((if isPrim then { r1 with primary_language := some codeU } else r1), true)

/-- Model of `_add_sentiment_from_parsed`: the lower-cased label must be one of
the three valid sentiments; the (single) sentiment is overwritten. -/
def add_sentiment_from_parsed (label : String) (confidence : Option Q)
    (result : UtilsResult) : UtilsResult × Bool :=
  let lbl : String := ⟨plower label.data⟩
  let c := safe_float_extract confidence (qi 0)
  if lbl = "positive" ∨ lbl = "negative" ∨ lbl = "neutral" then
    ({ result with sentiment := some ⟨lbl, c⟩, has_sentiment := true }, true)
  else (result, false)

/-- Dispatch of `_process_parsed_results` on one record. -/
def process_one (result : UtilsResult) : PRecord → UtilsResult × Bool
  | PRecord.intent name conf prio => add_intent_from_parsed name conf prio result
  | PRecord.entity ty value conf => add_entity_from_parsed ty value conf result
  | PRecord.language code conf prim => add_language_from_parsed code conf prim result
  | PRecord.sentiment label conf => add_sentiment_from_parsed label conf result

/-- Model of `_process_parsed_results`: fold the records, succeeding when at least
one was accepted. -/
def process_parsed_results (records : List PRecord) (result : UtilsResult) :
    UtilsResult × Bool :=
  let step := records.foldl
    (fun (acc : UtilsResult × Nat) r =>
      let out := process_one acc.1 r
      (out.1, acc.2 + (if out.2 then 1 else 0)))
    (result, 0)
  (step.1, decide (0 < step.2))

/-- One step of `_process_flexible_results`. -/
def flex_step (acc : UtilsResult × Nat) (item : FlexRecord) : UtilsResult × Nat :=
  let rt : String := ⟨plower item.type.data⟩
  let conf := safe_float_extract item.confidence (qv 8 10)
  if rt = "intent" then
    match item.values with
    | v0 :: _ => ({ acc.1 with intents := acc.1.intents ++ [⟨v0, conf, qi 0⟩] }, acc.2 + 1)
    | [] => acc
  else if rt = "entity" then
    match item.values with
    | v0 :: v1 :: _ => ({ acc.1 with entities := acc.1.entities ++ [⟨v0, v1, conf⟩] }, acc.2 + 1)
    | _ => acc
  else acc

/-- Model of `_process_flexible_results`. -/
def process_flexible_results (records : List FlexRecord) (result : UtilsResult) :
    UtilsResult × Bool :=
  let step := records.foldl flex_step (result, 0)
  (step.1, decide (0 < step.2))

/-- Model of `_parse_with_partial_grammar`: a raising flexible grammar is caught
and reported as failure. -/
def parse_with_flex_grammar (flexible : Option (List FlexRecord)) (result : UtilsResult) :
    UtilsResult × Bool :=
  match flexible with
  | none => (result, false)
  | some records => process_flexible_results records result

/-- Descending-confidence order for the final intent sort. -/
def intentDescLe (a b : NLUIntent) : Bool := decide (Q.le b.confidence a.confidence)

/-- The language sort key `(not is_primary, -confidence)`. -/
def langOrderLe (a b : NLULanguage) : Bool :=
  (a.is_primary && !b.is_primary) ||
  (a.is_primary == b.is_primary && decide (Q.le b.confidence a.confidence))

/-- Model of `_finalize_result`: sort intents by descending confidence and
languages by primary-first then descending confidence (counts and
averages are diagnostics and are omitted). -/
def finalize_result (r : UtilsResult) : UtilsResult :=
  { r with intents := stableSort intentDescLe r.intents,
           languages := stableSort langOrderLe r.languages }

/-- The class `[:\s]`. -/
def isColonWs (c : Char) : Bool := c = ':' ∨ isWs c

/-- The class `[,\s]`. -/
def isCommaWs (c : Char) : Bool := c = ',' ∨ isWs c

/-- One attempt of `intent[:\s]*([a-zA-Z_]+)[,\s]*confidence[:\s]*([0-9.]+)`
at the current position (the quick-fallback pattern). -/
def matchQuickIntentAt (l : List Char) : Option ((String × List Char) × List Char) := do
  let r1 ← matchLit "intent".data l
  let r2 := (takeClass isColonWs r1).2
  let (name, r3) := takeClass isNameChar r2
  if name.isEmpty then none else do
  let r4 := (takeClass isCommaWs r3).2
  let r5 ← matchLit "confidence".data r4
  let r6 := (takeClass isColonWs r5).2
  let (conf, r7) := takeClass isConfChar r6
  if conf.isEmpty then none else
  some ((⟨name⟩, conf), r7)

/-- Model of `re.findall` for the quick-fallback pattern. -/
def scanQuickIntentsAux : Nat → List Char → List (String × List Char)
  | 0, _ => []
  | _ + 1, [] => []
  | fuel + 1, c :: cs =>
    match matchQuickIntentAt (c :: cs) with
    | some (p, rest) => p :: scanQuickIntentsAux fuel rest
    | none => scanQuickIntentsAux fuel cs

/-- All quick-fallback matches. -/
def scanQuickIntents (l : List Char) : List (String × List Char) :=
  scanQuickIntentsAux l.length l

/-- Model of `_quick_regex_fallback`: up to three regex intents (confidence
upper-clamped, `float` failures skipped); a generic `general_intent@0.5`
when none matched. -/
def quick_regex_fallback (nlu_output : List Char) (result : UtilsResult) : UtilsResult :=
  let withIntents := ((scanQuickIntents nlu_output).take 3).foldl
    (fun acc m =>
      match parsePyFloat m.2 with
      | some q => { acc with intents := acc.intents ++ [⟨m.1, Q.min (qi 1) q, qi 0⟩] }
      | none => acc)
    result
  if withIntents.intents ≠ [] then
    finalize_result { withIntents with
      status := "partial_success", strategy_used := "quick_regex_fallback" }
  else
    finalize_result { withIntents with
      intents := [⟨"general_intent", qv 5 10, qi 0⟩],
      status := "partial_success", strategy_used := "generic_fallback" }

/-- The class `[^a-zA-Z]`. -/
def isNonAlpha (c : Char) : Bool := !(('a' ≤ c ∧ c ≤ 'z') ∨ ('A' ≤ c ∧ c ≤ 'Z'))

/-- The class `[^0-9]`. -/
def isNonDigit (c : Char) : Bool := !c.isDigit

/-- The class `[^a-zA-Z฀-๿]`. -/
def isNonAlphaThai (c : Char) : Bool :=
  !((('a' ≤ c ∧ c ≤ 'z') ∨ ('A' ≤ c ∧ c ≤ 'Z')) ∨ isThaiChar c)

/-- The class `[\w฀-๿]` (ASCII and Thai). -/
def isWordThai (c : Char) : Bool := c.isAlphanum ∨ c = '_' ∨ isThaiChar c

/-- One attempt of `intent[^a-zA-Z]*([a-zA-Z_]+)[^0-9]*([\d.]+)` at the
current position (the last-resort pattern). -/
def matchLooseIntentAt (l : List Char) : Option ((String × List Char) × List Char) := do
  let r1 ← matchLit "intent".data l
  let r2 := (takeClass isNonAlpha r1).2
  let (name, r3) := takeClass isNameChar r2
  if name.isEmpty then none else do
  let r4 := (takeClass isNonDigit r3).2
  let (conf, r5) := takeClass isConfChar r4
  if conf.isEmpty then none else
  some ((⟨name⟩, conf), r5)

/-- One attempt of
`entity[^a-zA-Z]*([a-zA-Z_]+)[^a-zA-Z฀-๿]*([\w฀-๿]+)[^0-9]*([\d.]+)`
at the current position. -/
def matchLooseEntityAt (l : List Char) : Option ((String × String × List Char) × List Char) := do
  let r1 ← matchLit "entity".data l
  let r2 := (takeClass isNonAlpha r1).2
  let (ty, r3) := takeClass isNameChar r2
  if ty.isEmpty then none else do
  let r4 := (takeClass isNonAlphaThai r3).2
  let (value, r5) := takeClass isWordThai r4
  if value.isEmpty then none else do
  let r6 := (takeClass isNonDigit r5).2
  let (conf, r7) := takeClass isConfChar r6
  if conf.isEmpty then none else
  some ((⟨ty⟩, ⟨value⟩, conf), r7)

/-- Model of `re.finditer` for the last-resort intent pattern. -/
def scanLooseIntentsAux : Nat → List Char → List (String × List Char)
  | 0, _ => []
  | _ + 1, [] => []
  | fuel + 1, c :: cs =>
    match matchLooseIntentAt (c :: cs) with
    | some (p, rest) => p :: scanLooseIntentsAux fuel rest
    | none => scanLooseIntentsAux fuel cs

/-- All last-resort intent matches. -/
def scanLooseIntents (l : List Char) : List (String × List Char) :=
  scanLooseIntentsAux l.length l

/-- Model of `re.finditer` for the last-resort entity pattern. -/
def scanLooseEntitiesAux : Nat → List Char → List (String × String × List Char)
  | 0, _ => []
  | _ + 1, [] => []
  | fuel + 1, c :: cs =>
    match matchLooseEntityAt (c :: cs) with
    | some (p, rest) => p :: scanLooseEntitiesAux fuel rest
    | none => scanLooseEntitiesAux fuel cs

/-- All last-resort entity matches. -/
def scanLooseEntities (l : List Char) : List (String × String × List Char) :=
  scanLooseEntitiesAux l.length l

/-- Model of `_regex_fallback` (run on the raw, uncleaned output): loose intents
and entities, `partial_success` when anything matched, else
`format_error` with no retained raw output. -/
def regex_fallback (nlu_output : List Char) (result : UtilsResult) : UtilsResult :=
  let r1 := (scanLooseIntents nlu_output).foldl
    (fun acc m =>
      match parsePyFloat m.2 with
      | some q => { acc with intents := acc.intents ++ [⟨m.1, Q.min (qi 1) q, qi 0⟩] }
      | none => acc)
    result
  let r2 := (scanLooseEntities nlu_output).foldl
    (fun acc m =>
      match parsePyFloat m.2.2 with
      | some q => { acc with entities := acc.entities ++ [⟨m.1, m.2.1, Q.min (qi 1) q⟩] }
      | none => acc)
    r1
  if r2.intents ≠ [] ∨ r2.entities ≠ [] then
    finalize_result { r2 with status := "partial_success", strategy_used := "regex_fallback" }
  else
    { r2 with status := "format_error" }

/-- Model of `re.sub(r"\s+", " ", s)`: collapse whitespace runs to one space. -/
def collapseWs : List Char → List Char
  | [] => []
  | [c] => if isWs c then [' '] else [c]
  | c :: c2 :: cs =>
    if isWs c ∧ isWs c2 then collapseWs (c2 :: cs)
    else (if isWs c then ' ' else c) :: collapseWs (c2 :: cs)

/-- Model of `re.sub(r"^(Output|Result):\s*", "", s, flags=IGNORECASE)`. -/
def stripOutputLabel (l : List Char) : List Char :=
  match matchLit "output:".data l with
  | some rest => rest.dropWhile isWs
  | none =>
    match matchLit "result:".data l with
    | some rest => rest.dropWhile isWs
    | none => l

/-- Model of `_clean_output`: drop the completion delimiter, strip, collapse
whitespace, strip a leading Output:/Result: label. -/
def clean_output (output : List Char) : List Char :=
  stripOutputLabel (collapseWs (pstrip (removeAllSub "<|COMPLETE|>".data output)))

/-- Model of `parse_intent_output` (src/llm/node/utils.py): length gate, grammar
attempt, strategy cascade, and the final fallback that converts any
uncaught failure into `format_error` while retaining the first 500
characters of the raw input.  Total by construction: no exception
reaches the caller. -/
def parse_intent_output (oracle : PyParsingOracle) (nlu_output : String) : UtilsResult :=
  let result := init_result
  let cleaned := clean_output nlu_output.data
  if (pstrip cleaned).length < 10 then
    { result with status := "input_too_short" }
  else
    match oracle.grammar with
    | GrammarOutcome.ok records =>
      let out1 := process_parsed_results records result
      if out1.2 then
        finalize_result { out1.1 with status := "success", strategy_used := "pyparsing_grammar" }
      else
        let out2 := parse_with_flex_grammar oracle.flexible out1.1
        if out2.2 then
          finalize_result { out2.1 with
            status := "partial_success", strategy_used := "pyparsing_partial" }
        else
          { out2.1 with status := "format_error", raw_output := some (nlu_output.data.take 500) }
    | GrammarOutcome.parseExc slow =>
      if slow then quick_regex_fallback cleaned result
      else regex_fallback nlu_output.data result
    | GrammarOutcome.otherExc slow =>
      if slow then quick_regex_fallback cleaned result
      else { result with status := "format_error", raw_output := some (nlu_output.data.take 500) }

/-! ## Router theorems -/

/-- C1: whenever the catalog's known-intent set contains both `greet` and
`purchase_intent` and the document's intent names include both (whatever
their confidences), `determine_required_contexts` picks the minimal preset
(greet short-circuits before the commercial intent), and that preset is
estimated at 550 tokens. -/
theorem router_greet_beats_purchase (catalog : String) (doc : NLUResult)
    (hcg : "greet" ∈ parse_default_intents_of catalog)
    (_hcp : "purchase_intent" ∈ parse_default_intents_of catalog)
    (hdg : "greet" ∈ doc.intents.map NLUIntent.name)
    (_hdp : "purchase_intent" ∈ doc.intents.map NLUIntent.name) :
    determine_required_contexts (some catalog) (some doc) =
      { core_behavior := true, interaction_guidelines := true, user_history := true,
        product_details := false, business_policies := false } ∧
    estimate_token_usage (determine_required_contexts (some catalog) (some doc)) = 550 := by
  have hne : doc.intents ≠ [] := by
    intro h
    rw [h] at hdg
    simp at hdg
  have hmin : determine_required_contexts (some catalog) (some doc) = get_minimal_contexts := by
    simp only [determine_required_contexts, parse_default_intents]
    rw [if_neg hne, if_pos ⟨hdg, hcg⟩]
  rw [hmin]
  exact ⟨rfl, rfl⟩

/-- C1 witness: the catalog `"greet:0.3, purchase_intent:0.8"` with intents
`greet@0.7` and `purchase_intent@0.9`. -/
theorem router_greet_beats_purchase_witness :
    determine_required_contexts (some "greet:0.3, purchase_intent:0.8")
      (some { content := "", intents := [⟨"greet", qv 7 10, qi 0⟩, ⟨"purchase_intent", qv 9 10, qi 0⟩],
              entities := [], sentiment := none }) =
      { core_behavior := true, interaction_guidelines := true, user_history := true,
        product_details := false, business_policies := false } ∧
    estimate_token_usage (determine_required_contexts (some "greet:0.3, purchase_intent:0.8")
      (some { content := "", intents := [⟨"greet", qv 7 10, qi 0⟩, ⟨"purchase_intent", qv 9 10, qi 0⟩],
              entities := [], sentiment := none })) = 550 :=
  router_greet_beats_purchase "greet:0.3, purchase_intent:0.8" _
    (by decide) (by decide) (by decide) (by decide)

/-- C6: with any catalog, routing a missing document or a document with no
intents yields the full preset (all five flags on), whose estimated token
usage is 100+150+800+200+300 = 1550. -/
theorem router_full_on_no_intents (catalog : Option String) (doc : NLUResult)
    (h : doc.intents = []) :
    determine_required_contexts catalog none =
      { core_behavior := true, interaction_guidelines := true, user_history := true,
        product_details := true, business_policies := true } ∧
    determine_required_contexts catalog (some doc) =
      { core_behavior := true, interaction_guidelines := true, user_history := true,
        product_details := true, business_policies := true } ∧
    estimate_token_usage (determine_required_contexts catalog none) = 1550 := by
  refine ⟨rfl, ?_, rfl⟩
  simp only [determine_required_contexts]
  rw [if_pos h]
  rfl

/-- C6 witness: an empty-intent document and a concrete catalog. -/
theorem router_full_on_no_intents_witness :
    determine_required_contexts (some "greet:0.3") none =
      { core_behavior := true, interaction_guidelines := true, user_history := true,
        product_details := true, business_policies := true } ∧
    determine_required_contexts (some "greet:0.3")
      (some { content := "hello", intents := [], entities := [], sentiment := none }) =
      { core_behavior := true, interaction_guidelines := true, user_history := true,
        product_details := true, business_policies := true } ∧
    estimate_token_usage (determine_required_contexts (some "greet:0.3") none) = 1550 :=
  router_full_on_no_intents (some "greet:0.3")
    { content := "hello", intents := [], entities := [], sentiment := none } rfl

/-- C7: when reading or parsing the default-intent catalog fails (modelled
as a missing catalog), the known-intent set degrades to the empty set, and
the router then returns the full preset for every document that has at
least one intent, since every routing branch requires catalog
membership. -/
theorem router_full_on_catalog_failure (doc : NLUResult) (h : doc.intents ≠ []) :
    parse_default_intents none = [] ∧
    determine_required_contexts none (some doc) =
      { core_behavior := true, interaction_guidelines := true, user_history := true,
        product_details := true, business_policies := true } := by
  refine ⟨rfl, ?_⟩
  simp [determine_required_contexts, parse_default_intents, h]
  rfl

/-- C7 witness: a one-intent document routed with a failed catalog. -/
theorem router_full_on_catalog_failure_witness :
    parse_default_intents none = [] ∧
    determine_required_contexts none
      (some { content := "", intents := [⟨"greet", qv 7 10, qi 0⟩], entities := [],
              sentiment := none }) =
      { core_behavior := true, interaction_guidelines := true, user_history := true,
        product_details := true, business_policies := true } :=
  router_full_on_catalog_failure
    { content := "", intents := [⟨"greet", qv 7 10, qi 0⟩], entities := [], sentiment := none }
    (by decide)


/-! ## Scorer theorems -/

/-- C3 counterexample: the spec scenario does not score 0.63 — the message
`"สวัสดีครับ"` is exactly 10 characters long, so the short-message boost
fires on top of the 0.63 intent floor. -/
theorem greeting_score_not_063 :
    ¬ Q.eqv (importance_score greeting_doc) (qv 63 100) := by decide

/-- C3 amended: scoring `"สวัสดีครับ"` with the single intent `greet@0.9`,
no entities and no sentiment yields 0.73: the baseline 0.2 is raised by
the intent floor to 0.63, no business-keyword or entity or sentiment boost
applies, and — because the trimmed message length is exactly 10 ≤ 10 and
the score already reached 0.6 — the 0.1 short-message boost is added. -/
theorem greeting_score_is_073 :
    Q.eqv (importance_score greeting_doc) (qv 73 100) := by decide

/-- C5: whenever the importance-score body raises internally, the guarded
scorer returns the fixed fallback 0.4 instead of propagating the error. -/
theorem scorer_error_fallback (r : RawNLUResult) (msg : String)
    (h : importance_score_body r = Except.error msg) :
    importance_score_guarded r = qv 4 10 := by
  unfold importance_score_guarded
  rw [h]

/-- C5 witness: a document whose `content` field is unusable. -/
theorem scorer_error_fallback_witness :
    importance_score_body ⟨none, some [], some [], some none⟩ = Except.error "content" ∧
    importance_score_guarded ⟨none, some [], some [], some none⟩ = qv 4 10 :=
  ⟨rfl, scorer_error_fallback ⟨none, some [], some [], some none⟩ "content" rfl⟩

/-- C9: entities whose value does not occur (case-insensitively) in the
message contribute no score increase: a document all of whose entities are
invalid scores no more than the same document with its entity list
emptied (the two scores are in fact equal). -/
theorem invalid_entities_no_boost (r : NLUResult)
    (h : ∀ e ∈ r.entities, strContains (plower r.content.data) (plower e.value.data) = false) :
    Q.le (importance_score r) (importance_score { r with entities := [] }) := by
  have hfe : (r.entities.filter fun e => strContains (plower r.content.data) (plower e.value.data)) = [] := by
    rw [List.filter_eq_nil_iff]
    intro e he
    simp [h e he]
  have heq : importance_score r = importance_score { r with entities := [] } := by
    unfold importance_score
    simp only [hfe, List.filter_nil, ne_eq, not_true_eq_false, and_false, if_false]
  rw [heq]
  exact le_refl _

/-- C9 witness: an entity `"laptop"` that never occurs in the Thai
message. -/
theorem invalid_entities_no_boost_witness :
    Q.le (importance_score { content := "สวัสดีครับ", intents := [⟨"greet", qv 9 10, qi 0⟩],
                             entities := [⟨"product", "laptop", qv 8 10⟩], sentiment := none })
         (importance_score { content := "สวัสดีครับ", intents := [⟨"greet", qv 9 10, qi 0⟩],
                             entities := [], sentiment := none }) :=
  invalid_entities_no_boost
    { content := "สวัสดีครับ", intents := [⟨"greet", qv 9 10, qi 0⟩],
      entities := [⟨"product", "laptop", qv 8 10⟩], sentiment := none }
    (by decide)


/-! ## Parser lemmas and theorems -/

/-- Stable insertion never yields the empty list. -/
theorem stableInsert_ne_nil {α : Type} (le : α → α → Bool) (x : α) (l : List α) :
    stableInsert le x l ≠ [] := by
  cases l with
  | nil => simp [stableInsert]
  | cons y ys =>
    simp only [stableInsert]
    split <;> simp

/-- A stable sort is empty exactly on the empty list. -/
theorem stableSort_eq_nil_iff {α : Type} (le : α → α → Bool) (l : List α) :
    stableSort le l = [] ↔ l = [] := by
  cases l with
  | nil => simp [stableSort]
  | cons x xs =>
    simp only [stableSort]
    constructor
    · intro h
      exact absurd h (stableInsert_ne_nil le x _)
    · intro h
      exact absurd h (List.cons_ne_nil x xs)

/-- The keyword fallback always emits at least one intent. -/
theorem extract_fallback_intents_ne_nil (t : List Char) :
    extract_fallback_intents t ≠ [] := by
  simp only [extract_fallback_intents]
  split
  · simp
  · assumption

/-- C8: a raw string from which the structured regexes extract no intent
and no entity, and whose cleaned text matches no known intent keyword,
parses to exactly the one synthesized intent `general_intent@0.5` and no
entities. -/
theorem no_records_no_keywords_general_intent (raw delimiter : String)
    (hi : scanIntents delimiter.data (clean_raw raw.data) = [])
    (he : scanEntities delimiter.data (clean_raw raw.data) = [])
    (hk : ∀ p ∈ intent_keywords, ∀ k ∈ p.2,
      strContains (plower (clean_raw raw.data)) (plower k.data) = false) :
    (parse_nlu_output raw delimiter).intents = [⟨"general_intent", qv 5 10⟩] ∧
    (parse_nlu_output raw delimiter).entities = [] := by
  have hhits : (intent_keywords.filterMap fun p =>
      if p.2.any (fun k => strContains (plower (clean_raw raw.data)) (plower k.data)) then
        some (⟨p.1, qv 7 10⟩ : SIntent)
      else none) = [] := by
    rw [List.filterMap_eq_nil_iff]
    intro p hp
    have hany : p.2.any (fun k => strContains (plower (clean_raw raw.data)) (plower k.data)) = false := by
      rw [List.any_eq_false]
      intro k hk2
      simp [hk p hp k hk2]
    rw [hany]
    simp
  have hfb : extract_fallback_intents (clean_raw raw.data) = [⟨"general_intent", qv 5 10⟩] := by
    simp only [extract_fallback_intents]
    rw [hhits]
    simp
  constructor
  · simp only [parse_nlu_output]
    rw [if_pos ⟨hi, he⟩, hfb]
    rfl
  · simp only [parse_nlu_output]
    rw [he]
    rfl

/-- C8 witness: a string with no records and no keywords. -/
theorem no_records_no_keywords_general_intent_witness :
    (parse_nlu_output "qqqq zzzz" "<||>").intents = [⟨"general_intent", qv 5 10⟩] ∧
    (parse_nlu_output "qqqq zzzz" "<||>").entities = [] :=
  no_records_no_keywords_general_intent "qqqq zzzz" "<||>" (by decide) (by decide) (by decide)

/-- C10: for every raw string and delimiter the parsed result has a
non-empty intent list or a non-empty entity list (when both regex scans
are empty the keyword fallback synthesizes at least one intent), and the
top-level exception handler likewise returns a one-intent result. -/
theorem parse_nlu_output_never_empty (raw delimiter : String) (err : String) :
    ((parse_nlu_output raw delimiter).intents ≠ [] ∨
      (parse_nlu_output raw delimiter).entities ≠ []) ∧
    (parse_nlu_output_handler (Except.error err)).intents = [⟨"general_intent", qv 5 10⟩] := by
  constructor
  · by_cases h : scanIntents delimiter.data (clean_raw raw.data) = [] ∧
        scanEntities delimiter.data (clean_raw raw.data) = []
    · left
      simp only [parse_nlu_output]
      rw [if_pos h, sortIntentsByConf]
      intro hcon
      rw [stableSort_eq_nil_iff] at hcon
      exact extract_fallback_intents_ne_nil _ hcon
    · rcases not_and_or.mp h with hA | hB
      · left
        simp only [parse_nlu_output]
        rw [if_neg h, sortIntentsByConf]
        intro hcon
        rw [stableSort_eq_nil_iff] at hcon
        exact hA hcon
      · right
        simp only [parse_nlu_output]
        rw [sortEntitiesByConf]
        intro hcon
        rw [stableSort_eq_nil_iff] at hcon
        exact hB hcon
  · rfl


/-! ## Wrapper theorems -/

/-- C2: the parse entry point is a total function of its input and of the
library behaviour (no exception escapes), and when the library call
raises a non-ParseException error that the top-level handler catches, the
returned result carries `format_error` status and retains exactly the
first 500 characters of the raw input (hence at most 500). -/
theorem parse_intent_output_top_level_catch (oracle : PyParsingOracle) (nlu_output : String)
    (hlen : ¬((pstrip (clean_output nlu_output.data)).length < 10))
    (hexc : oracle.grammar = GrammarOutcome.otherExc false) :
    (parse_intent_output oracle nlu_output).status = "format_error" ∧
    (parse_intent_output oracle nlu_output).raw_output = some (nlu_output.data.take 500) ∧
    ∀ kept, (parse_intent_output oracle nlu_output).raw_output = some kept →
      kept.length ≤ 500 := by
  have hres : parse_intent_output oracle nlu_output =
      { intents := [], entities := [], languages := [], sentiment := none,
        primary_language := none, has_sentiment := false, status := "format_error",
        strategy_used := "pyparsing_grammar",
        raw_output := some (nlu_output.data.take 500) } := by
    simp only [parse_intent_output]
    rw [if_neg hlen, hexc]
    rfl
  rw [hres]
  refine ⟨rfl, rfl, ?_⟩
  intro kept hk
  have hkeq : kept = nlu_output.data.take 500 := by
    cases hk
    rfl
  rw [hkeq]
  exact List.length_take_le 500 _

/-- C2 witness: a 21-character raw output on which the grammar call
raises a generic exception before the time budget. -/
theorem parse_intent_output_top_level_catch_witness :
    (parse_intent_output ⟨GrammarOutcome.otherExc false, none⟩ "malformed output text").status
      = "format_error" ∧
    (parse_intent_output ⟨GrammarOutcome.otherExc false, none⟩ "malformed output text").raw_output
      = some ("malformed output text".data.take 500) ∧
    ∀ kept,
      (parse_intent_output ⟨GrammarOutcome.otherExc false, none⟩ "malformed output text").raw_output
        = some kept → kept.length ≤ 500 :=
  parse_intent_output_top_level_catch ⟨GrammarOutcome.otherExc false, none⟩
    "malformed output text" (by decide) rfl

/-- C4 counterexample: out-of-range confidences are not clamped-and-kept.
The pyparsing validator rejects both a 1.7 and a -0.5 intent record
(storing nothing), and the regex parser never matches a negative
confidence, so parsing `(intent<||>greet<||>-0.5)` stores no greet record
at 0.0 — only the keyword-fallback intent remains. -/
theorem out_of_range_confidence_rejected :
    (add_intent_from_parsed "greet" (some (qv 17 10)) none init_result).2 = false ∧
    (add_intent_from_parsed "greet" (some (qv (-5) 10)) none init_result).2 = false ∧
    (add_intent_from_parsed "greet" (some (qv 17 10)) none init_result).1.intents = [] ∧
    (parse_nlu_output "(intent<||>greet<||>-0.5)" "<||>").intents
      = [⟨"general_intent", qv 5 10⟩] := by
  refine ⟨rfl, rfl, rfl, ?_⟩
  decide

/-- C4 amended: in the regex parser `parse_nlu_output`, a parsed
confidence of 1.7 is stored upper-clamped to 1.0 through `min(1.0, ...)`
(negative values cannot match the pattern at all), while in the pyparsing
parser `_add_intent_from_parsed` any record whose extracted confidence
lies outside [0, 1] is rejected — not clamped, not stored. -/
theorem confidence_clamping_amended (name : String) (conf priority : Option Q)
    (r : UtilsResult)
    (h : Q.lt (safe_float_extract conf (qi 0)) (qi 0) ∨
         Q.lt (qi 1) (safe_float_extract conf (qi 0))) :
    (parse_nlu_output "(intent<||>greet<||>1.7)" "<||>").intents = [⟨"greet", qi 1⟩] ∧
    add_intent_from_parsed name conf priority r = (r, false) := by
  constructor
  · decide
  · have hc : ¬(Q.le (qi 0) (safe_float_extract conf (qi 0)) ∧
        Q.le (safe_float_extract conf (qi 0)) (qi 1)) := by
      rcases h with h | h
      · rintro ⟨h1, -⟩
        unfold Q.lt at h
        unfold Q.le at h1
        unfold qi at h h1
        simp at h h1
        omega
      · rintro ⟨-, h2⟩
        unfold Q.lt at h
        unfold Q.le at h2
        unfold qi at h h2
        simp at h h2
        omega
    simp only [add_intent_from_parsed]
    rw [if_pos (Or.inr hc)]

/-- C4 amended witness: the 1.7 record. -/
theorem confidence_clamping_amended_witness :
    (parse_nlu_output "(intent<||>greet<||>1.7)" "<||>").intents = [⟨"greet", qi 1⟩] ∧
    add_intent_from_parsed "greet" (some (qv 17 10)) none init_result = (init_result, false) :=
  confidence_clamping_amended "greet" (some (qv 17 10)) none init_result
    (Or.inr (by decide))

end ChatbotCore
